import Mathlib

/-!
Shallow embedding of the cluster-fastcopy HTTP bridge (Go), revision
`src/unnamed/part_003`: the `/copy` orchestrator (`handleCopy`), the per-file
transfer task (`sendToUpload`), the `/upload` sink (`handleUpload`,
`WriteHDFS`), and the lexical path arithmetic (`filepath.Join`) they use.

External effects are passed in explicitly:
  * the HDFS gateway is a `CopyEnv` / `UploadEnv` record giving the result of
    `client.ReadDir`, `client.Open`, `client.Create` and `io.Copy`;
  * the wall clock is an `elapsed` parameter (the value of
    `time.Since(start).Seconds()`);
  * the outbound HTTP call of a transfer task is a function from the request
    URL to the step outcome (`http.NewRequest` error, `httpClient.Do` error,
    or a status code).
Goroutine scheduling of the fan-out is modelled separately by `TaskEvent`
schedules, since the Go code imposes no ordering between distinct tasks.
-/

/-! ### Lexical path model: Go `path/filepath` on unix -/

/-- Split a path on the slash separator, keeping empty segments
(the list form of `strings.Split(path, "/")`). -/
def splitSlashChars : List Char → List (List Char)
  | [] => [[]]
  | c :: rest =>
    let r := splitSlashChars rest
    if c = '/' then [] :: r
    else
      match r with
      | [] => [[c]]
      | s :: ss => (c :: s) :: ss

/-- One pass of Go `path.Clean`: drop empty and `.` segments, resolve `..`
against the output stack (a rooted path drops a `..` at the root; an unrooted
path keeps leading `..` segments). The accumulator holds the output elements
in reverse. -/
def cleanSegs (rooted : Bool) : List (List Char) → List (List Char) → List (List Char)
  | [], acc => acc.reverse
  | seg :: rest, acc =>
    if seg = [] ∨ seg = ['.'] then cleanSegs rooted rest acc
    else if seg = ['.', '.'] then
      match acc with
      | [] => if rooted then cleanSegs rooted rest [] else cleanSegs rooted rest [['.', '.']]
      | top :: acc2 =>
        if top = ['.', '.'] then cleanSegs rooted rest (seg :: top :: acc2)
        else cleanSegs rooted rest acc2
    else cleanSegs rooted rest (seg :: acc)

/-- Join segments with single slashes. -/
def joinSegs : List (List Char) → List Char
  | [] => []
  | [s] => s
  | s :: rest => s ++ '/' :: joinSegs rest

/-- Go `path/filepath.Clean` (unix separator), lexically: collapse repeated
slashes, drop `.`, resolve `..`, return `.` for an empty result and `/` for a
rooted empty result. -/
def filepathClean (p : String) : String :=
  if p = "" then "."
  else
    let cs := p.toList
    let rooted := match cs with
      | '/' :: _ => true
      | _ => false
    let out := joinSegs (cleanSegs rooted (splitSlashChars cs) [])
    if rooted then String.mk ('/' :: out)
    else if out = [] then "." else String.mk out

/-- Go `path/filepath.Join` of two elements: empty elements are dropped, the
rest are joined with a slash and the result is cleaned. `Join("", "")` is
`""`. -/
def filepathJoin (a b : String) : String :=
  if a = "" ∧ b = "" then ""
  else if a = "" then filepathClean b
  else if b = "" then filepathClean a
  else filepathClean (a ++ "/" ++ b)

/-- `p` stays inside directory `parent` in the lexical sense: it is `parent`
itself or has `parent ++ "/"` as a prefix. -/
def isUnder (parent p : String) : Bool :=
  p == parent || (parent ++ "/").toList.isPrefixOf p.toList

/-! ### Data model (`part_003` type declarations) -/

/-- The fields of `os.FileInfo` that `handleCopy` reads from a `ReadDir`
entry: `Name()`, `Size()`, `IsDir()`. -/
structure FileInfo where
  name : String
  size : Int
  isDir : Bool
deriving DecidableEq

/-- Go `type UploadResponse struct { Path string; Written int64 }`. -/
structure UploadResponse where
  Path : String
  Written : Int
deriving DecidableEq

/-- Go `type CopyFailure struct { Path, Reason string; Size int64 }`. -/
structure CopyFailure where
  Path : String
  Reason : String
  Size : Int
deriving DecidableEq

/-- Go `type CopyResponse struct { ... }`; `Throughput` and `ElapsedSecs` are
`float64`, modelled as exact rationals. -/
structure CopyResponse where
  From : String
  To : String
  Written : Int
  FilesRequested : Int
  FilesCopied : Int
  CopyFailures : List CopyFailure
  Throughput : ℚ
  ElapsedSecs : ℚ
deriving DecidableEq

/-- Go `type CopyArgs struct { From, File, Path, To string }`. -/
structure CopyArgs where
  From : String
  File : String
  Path : String
  To : String
deriving DecidableEq

/-! ### `/upload` side: `WriteHDFS` and `handleUpload` -/

/-- The slice of HDFS namespace state the upload path touches: a directory
set and a map from file path to byte content (bytes as naturals). -/
structure HdfsState where
  dirs : List String
  files : List (String × List Nat)
deriving DecidableEq

/-- `client.MkdirAll(to, 0755)`. -/
def HdfsState.mkdirAll (st : HdfsState) (dir : String) : HdfsState :=
  { st with dirs := if st.dirs.contains dir then st.dirs else dir :: st.dirs }

/-- `client.Remove(path)` (the code uses it to truncate the file to 0 bytes;
a missing file is a no-op since the returned error is ignored). -/
def HdfsState.removeFile (st : HdfsState) (path : String) : HdfsState :=
  { st with files := st.files.filter (fun e => e.1 != path) }

/-- `client.Create(path)` / writing content into the created file. -/
def HdfsState.setFile (st : HdfsState) (path : String) (content : List Nat) : HdfsState :=
  { st with files := (path, content) :: st.files.filter (fun e => e.1 != path) }

/-- Read back the content stored at `path`. -/
def HdfsState.lookupFile (st : HdfsState) (path : String) : Option (List Nat) :=
  (st.files.find? (fun e => e.1 == path)).map Prod.snd

/-- Behaviour of the HDFS gateway during one `/upload` request:
whether `client.Create(path)` fails (with which message), and whether
`io.Copy` fails (with the message and the byte count written before the
failure). -/
structure UploadEnv where
  createErr : String → Option String
  copyErr : Option (String × Nat)

/-- Result of `WriteHDFS`: the `(UploadResponse, error)` pair together with
the HDFS state left behind. -/
inductive UploadOut where
  | success (resp : UploadResponse) (st : HdfsState)
  | failure (msg : String) (st : HdfsState)
deriving DecidableEq

/-- Go `WriteHDFS(to, fileName, data)`: `MkdirAll(to)`, `path :=
filepath.Join(to, fileName)`, `Remove(path)`, `Create(path)`, then
`io.Copy(file, data)`; returns the path and the exact count of bytes
copied. -/
def WriteHDFS (env : UploadEnv) (st : HdfsState) (toP fileName : String)
    (data : List Nat) : UploadOut :=
  let st1 := st.mkdirAll toP
  let path := filepathJoin toP fileName
  let st2 := st1.removeFile path
  match env.createErr path with
  | some e => .failure ("Error creating file in hdfs " ++ e) st2
  | none =>
    let st3 := st2.setFile path []
    match env.copyErr with
    | some (msg, k) =>
      .failure ("Error copying request body into file " ++ fileName ++ " " ++ msg)
        (st3.setFile path (data.take k))
    | none => .success { Path := path, Written := (data.length : Int) } (st3.setFile path data)

/-- HTTP outcome of `/upload`. -/
inductive UploadHttpOut where
  | badRequest (msg : String)
  | serverError (msg : String)
  | okJson (resp : UploadResponse)
deriving DecidableEq

/-- Whether the `/upload` outcome is the 500 branch. -/
def UploadHttpOut.isServerError : UploadHttpOut → Bool
  | .serverError _ => true
  | _ => false

/-- Go `handleUpload`: 400 when `to` or `fileName` is missing, otherwise
`WriteHDFS` with the request body; 500 on its error, else the marshalled
`UploadResponse`. -/
def handleUpload (env : UploadEnv) (st : HdfsState) (toP fileName : String)
    (body : List Nat) : UploadHttpOut × HdfsState :=
  if toP = "" ∨ fileName = "" then
    (.badRequest "to, fileName, dir query params must be provided.", st)
  else
    match WriteHDFS env st toP fileName body with
    | .failure msg st2 => (.serverError msg, st2)
    | .success resp st2 => (.okJson resp, st2)

/-! ### `/copy` side: `sendToUpload`, the fan-out loop, `handleCopy` -/

/-- What one outbound transfer encounters, as a function of the request:
`http.NewRequest` returns an error, `httpClient.Do` returns an error, or a
response with the given status code arrives. -/
inductive UploadStep where
  | newReqErr (msg : String)
  | doErr (msg : String)
  | status (code : Nat)
deriving DecidableEq

/-- Behaviour of the outside world during one `/copy` request: the result of
`client.ReadDir(from)`, the error (if any) of `client.Open(path)` per path,
and the outcome of the POST per upload URL. -/
structure CopyEnv where
  readDir : Except String (List FileInfo)
  openErr : String → Option String
  upload : String → UploadStep

/-- How one `sendToUpload` goroutine ends: it either runs to the end of the
function body, or panics on a nil dereference part-way through. Either way it
carries the `CopyFailure` values it sent on the channel before ending. -/
inductive TaskRun where
  | normal (failures : List CopyFailure)
  | panicked (failures : List CopyFailure)
deriving DecidableEq

/-- The failures a task sent on `copyFailuresCh`. -/
def TaskRun.failuresOf : TaskRun → List CopyFailure
  | .normal fs => fs
  | .panicked fs => fs

/-- Whether the task panicked (which kills the whole Go process). -/
def TaskRun.isPanicked : TaskRun → Bool
  | .normal _ => false
  | .panicked _ => true

/-- The reason string of the non-OK-status branch of `sendToUpload`. -/
def nonOkReason (file : String) (code : Nat) : String :=
  "/upload returned non-OK status for file " ++ file ++ ": " ++ Nat.repr code

/-- Go `sendToUpload(reader, targetURL, args, wg, ch)`. The error branches
have no `return` statement, so control falls through them:
  * `http.NewRequest` error: the failure is sent on `ch`, then
    `req.Header.Set` dereferences the nil `req` — panic;
  * `httpClient.Do` error: the failure is sent on `ch`, then
    `defer resp.Body.Close()` dereferences the nil `resp` — panic;
  * non-`200` status: the failure is sent on `ch` and execution continues to
    the closing success log, returning normally;
  * `200`: nothing is sent, the task returns normally. -/
def sendToUpload (env : CopyEnv) (targetURL : String) (args : CopyArgs)
    (size : Int) : TaskRun :=
  let uploadUrl := targetURL ++ "?fileName=" ++ args.File ++ "&to=" ++ args.To
  match env.upload uploadUrl with
  | .newReqErr msg => .panicked [{ Path := args.Path, Reason := msg, Size := size }]
  | .doErr msg => .panicked [{ Path := args.Path, Reason := msg, Size := size }]
  | .status code =>
    if code = 200 then .normal []
    else .normal [{ Path := args.Path, Reason := nonOkReason args.File code, Size := size }]

/-- How the `for _, fileInfo := range fileInfos` loop of `handleCopy` ends:
either `client.Open` failed on some entry and the `return` statement left the
handler (carrying the failure that was sent on the channel, the names of the
tasks already launched, and the running total), or the loop ran to completion
with the running byte total, the launched task runs, the launched names, and
the successive values taken by `totalBytesWritten`. -/
inductive LoopOut where
  | aborted (failure : CopyFailure) (launched : List String) (total : Int) (trace : List Int)
  | finished (total : Int) (runs : List TaskRun) (launched : List String) (trace : List Int)
deriving DecidableEq

/-- The fan-out loop of `handleCopy`: skip directories, add the entry size to
`totalBytesWritten` (before anything is transferred), open the source file —
on error send a `CopyFailure` and `return` from the handler — and otherwise
launch `sendToUpload` for the entry. `total`, `runs`, `launched`, `trace`
are the loop-carried accumulators (`trace` records each value
`totalBytesWritten` takes). -/
def copyLoop (env : CopyEnv) (fromP toP targetURL : String) :
    List FileInfo → Int → List TaskRun → List String → List Int → LoopOut
  | [], total, runs, launched, trace => .finished total runs launched trace
  | fi :: rest, total, runs, launched, trace =>
    if fi.isDir then copyLoop env fromP toP targetURL rest total runs launched trace
    else
      let path := filepathJoin fromP fi.name
      let total2 := total + fi.size
      let trace2 := trace ++ [total2]
      match env.openErr path with
      | some msg =>
        .aborted { Path := path, Reason := msg, Size := fi.size } launched total2 trace2
      | none =>
        let run := sendToUpload env targetURL
          { From := fromP, File := fi.name, Path := path, To := toP } fi.size
        copyLoop env fromP toP targetURL rest total2 (runs ++ [run]) (launched ++ [fi.name]) trace2

/-- The collector goroutine: append every failure received on
`copyFailuresCh`, in order. -/
def collectFailures : List TaskRun → List CopyFailure
  | [] => []
  | r :: rest => r.failuresOf ++ collectFailures rest

/-- The post-join loop `for _, f := range copyFailures { totalBytesWritten -=
f.Size }`: the final total together with the successive values the variable
takes. -/
def subtractFailures : List CopyFailure → Int → Int × List Int
  | [], t => (t, [])
  | f :: rest, t =>
    let t2 := t - f.Size
    let r := subtractFailures rest t2
    (r.1, t2 :: r.2)

/-- `len()` of `copyFailuresCh`: the channel is created with `make(chan
CopyFailure)` — unbuffered — so its length is always zero. -/
def unbufferedChanLen : Nat := 0

/-- Result of one `/copy` request. `done` carries the marshalled
`CopyResponse`, the flag of the `len(copyFailuresCh) > 0` check (true means
the 500 branch), the full trace of `totalBytesWritten` values, and the names
of the launched tasks. -/
inductive CopyResult where
  | badRequest (msg : String)
  | listError (msg : String)
  | openAbort (failure : CopyFailure) (launched : List String)
  | crashed (failures : List CopyFailure)
  | done (resp : CopyResponse) (isError : Bool) (trace : List Int) (launched : List String)
deriving DecidableEq

/-- Go `handleCopy`: validate `from` and `to` (only those two), `ReadDir`,
fan out over the non-directory entries, join, subtract the sizes of the
collected failures, build the `CopyResponse`, and decide success via
`len(copyFailuresCh) > 0`. A task panic (nil dereference inside
`sendToUpload`) kills the process: `crashed`. `elapsed` is the value
`time.Since(start).Seconds()` evaluates to after the join. -/
def handleCopy (env : CopyEnv) (fromP toP targetURL : String) (elapsed : ℚ) : CopyResult :=
  if fromP = "" ∨ toP = "" then
    .badRequest "from, to, and targetURL query params must be provided."
  else
    match env.readDir with
    | .error e => .listError ("Failed to list the hdfs dir " ++ e)
    | .ok fileInfos =>
      match copyLoop env fromP toP targetURL fileInfos 0 [] [] [] with
      | .aborted failure launched _total _trace => .openAbort failure launched
      | .finished total runs launched trace =>
        if runs.any TaskRun.isPanicked then .crashed (collectFailures runs)
        else
          let copyFailures := collectFailures runs
          let ws := subtractFailures copyFailures total
          let resp : CopyResponse :=
            { From := fromP
              To := toP
              Written := ws.1
              FilesRequested := (fileInfos.length : Int)
              FilesCopied := (fileInfos.length : Int) - (copyFailures.length : Int)
              CopyFailures := copyFailures
              Throughput := (ws.1 : ℚ) * 8 / elapsed / 1000000
              ElapsedSecs := elapsed }
          .done resp (decide (0 < unbufferedChanLen)) (trace ++ ws.2) launched

/-! ### Derived views of a `/copy` run, used to state the claims -/

/-- The non-directory entries of a listing (the entries considered for
transfer). -/
def nonDirs (l : List FileInfo) : List FileInfo :=
  l.filter (fun fi => !fi.isDir)

/-- Sum of entry sizes. -/
def sumSizes : List FileInfo → Int
  | [] => 0
  | fi :: rest => fi.size + sumSizes rest

/-- Sum of the sizes carried by failure entries. -/
def sumFailSizes : List CopyFailure → Int
  | [] => 0
  | f :: rest => f.Size + sumFailSizes rest

/-- The request URL `sendToUpload` builds for a file. -/
def uploadUrlFor (targetURL file toP : String) : String :=
  targetURL ++ "?fileName=" ++ file ++ "&to=" ++ toP

/-- The task run `handleCopy` launches for one non-directory entry. -/
def mkRun (env : CopyEnv) (fromP toP targetURL : String) (fi : FileInfo) : TaskRun :=
  sendToUpload env targetURL
    { From := fromP, File := fi.name, Path := filepathJoin fromP fi.name, To := toP } fi.size

/-- Whether a step outcome makes `sendToUpload` send a `CopyFailure`. -/
def stepFails : UploadStep → Bool
  | .newReqErr _ => true
  | .doErr _ => true
  | .status code => !(code == 200)

/-- Whether the transfer of entry `fi` produces a failure. -/
def uploadFails (env : CopyEnv) (targetURL toP : String) (fi : FileInfo) : Bool :=
  stepFails (env.upload (uploadUrlFor targetURL fi.name toP))

/-- The reason string a failing step produces. -/
def stepFailReason (step : UploadStep) (file : String) : String :=
  match step with
  | .newReqErr msg => msg
  | .doErr msg => msg
  | .status code => nonOkReason file code

/-- The `CopyFailure` entry the transfer of entry `fi` produces when it
fails. -/
def mkFail (env : CopyEnv) (fromP toP targetURL : String) (fi : FileInfo) : CopyFailure :=
  { Path := filepathJoin fromP fi.name
    Reason := stepFailReason (env.upload (uploadUrlFor targetURL fi.name toP)) fi.name
    Size := fi.size }

/-! ### Scheduling model of the goroutine fan-out

`handleCopy` launches each transfer task with a bare `go` statement: it
acquires no permit, semaphore or worker-pool slot first, and the only
synchronisation between the handler and the tasks is the final `wg.Wait()`.
The code therefore imposes no ordering between the events of distinct tasks;
a schedule is possible exactly when each task starts once and finishes once,
after its own start. -/

/-- An observable scheduling event of task `i`: its goroutine becomes active
(holding its open source stream and in-flight POST), or it ends. -/
inductive TaskEvent where
  | start (i : Nat)
  | finish (i : Nat)
deriving DecidableEq

/-- The task a scheduling event belongs to. -/
def TaskEvent.idx : TaskEvent → Nat
  | .start i => i
  | .finish i => i

/-- Whether the event is a task start. -/
def TaskEvent.isStart : TaskEvent → Bool
  | .start _ => true
  | .finish _ => false

/-- A schedule of `n` launched tasks that the code permits: every event
belongs to one of the `n` tasks, and each task starts exactly once and
finishes exactly once, with its start before its finish. Nothing else is
constrained, because the fan-out loop contains no permit acquisition. -/
def admissible (n : Nat) (sched : List TaskEvent) : Bool :=
  sched.all (fun e => e.idx < n) &&
  (List.range n).all (fun i =>
    sched.count (TaskEvent.start i) == 1 &&
    sched.count (TaskEvent.finish i) == 1 &&
    Nat.blt (sched.indexOf (TaskEvent.start i)) (sched.indexOf (TaskEvent.finish i)))

/-- Maximum of two integers, written out so it evaluates by kernel
reduction. -/
def intMax (a b : Int) : Int := if a ≤ b then b else a

/-- The number of concurrently active tasks after each event, starting from
`a` active ones. -/
def activeTrace : List TaskEvent → Int → List Int
  | [], _ => []
  | e :: rest, a =>
    let a2 := if e.isStart then a + 1 else a - 1
    a2 :: activeTrace rest a2

/-- The largest number of simultaneously active tasks over a schedule. -/
def maxActive (sched : List TaskEvent) : Int :=
  (activeTrace sched 0).foldr intMax 0

/-- The schedule in which all `n` tasks start before any finishes. -/
def burstSchedule (n : Nat) : List TaskEvent :=
  (List.range n).map TaskEvent.start ++ (List.range n).map TaskEvent.finish

/-- The indices of the start events of a schedule, in order. -/
def startIdxs (sched : List TaskEvent) : List Nat :=
  sched.filterMap (fun e =>
    match e with
    | .start i => some i
    | .finish _ => none)

/-- The launched-task names recorded in a `/copy` outcome. -/
def CopyResult.launchedOf : CopyResult → List String
  | .done _ _ _ launched => launched
  | .openAbort _ launched => launched
  | _ => []

/-! ### Concrete environments and runs used by the claim witnesses -/

/-- A gateway where listing yields `listing` and every open and every upload
succeeds. -/
def envAllOk (listing : List FileInfo) : CopyEnv :=
  { readDir := .ok listing
    openErr := fun _ => none
    upload := fun _ => .status 200 }

/-- Listing with one directory entry and one 5-byte file. -/
def listingC1 : List FileInfo :=
  [{ name := "d", size := 0, isDir := true }, { name := "a", size := 5, isDir := false }]

/-- Run for the C1 counterexample. -/
def envC1 : CopyEnv := envAllOk listingC1

/-- Listing with a single 7-byte file. -/
def listingOne7 : List FileInfo := [{ name := "y", size := 7, isDir := false }]

/-- Gateway whose sink rejects every upload with status 500, over a single
7-byte file. -/
def envC2 : CopyEnv :=
  { readDir := .ok listingOne7
    openErr := fun _ => none
    upload := fun _ => .status 500 }

/-- Gateway whose sink rejects every upload with status 500, over a single
7-byte file named `x`. -/
def envC3 : CopyEnv :=
  { readDir := .ok [{ name := "x", size := 7, isDir := false }]
    openErr := fun _ => none
    upload := fun _ => .status 500 }

/-- Gateway where opening the first of two files fails. -/
def envC4 : CopyEnv :=
  { readDir := .ok [{ name := "a", size := 3, isDir := false },
                    { name := "b", size := 4, isDir := false }]
    openErr := fun p => if p = "f/a" then some "open failed" else none
    upload := fun _ => .status 200 }

/-- Nine 1-byte files. -/
def listing9 : List FileInfo :=
  (List.range 9).map (fun i => { name := "f" ++ Nat.repr i, size := 1, isDir := false })

/-- Run for the C5 counterexample: nine files, everything succeeds. -/
def env9 : CopyEnv := envAllOk listing9

/-- Empty listing, everything succeeds: run for the C6 failing input. -/
def envC6 : CopyEnv := envAllOk []

/-- Single 3-byte file, everything succeeds: run for the C8 witness. -/
def envC8 : CopyEnv := envAllOk [{ name := "w", size := 3, isDir := false }]

/-- Transfer-task arguments used by the C9 failing input. -/
def argsC9 : CopyArgs := { From := "/src", File := "x", Path := "/src/x", To := "/dst" }

/-- World in which every `httpClient.Do` call fails with a network error. -/
def envDoErr : CopyEnv :=
  { readDir := .ok []
    openErr := fun _ => none
    upload := fun _ => .doErr "connection refused" }

/-- World in which every upload gets a 500 response. -/
def envStatus500 : CopyEnv :=
  { readDir := .ok []
    openErr := fun _ => none
    upload := fun _ => .status 500 }

/-- Upload-side gateway where create and copy succeed. -/
def uploadEnvOk : UploadEnv := { createErr := fun _ => none, copyErr := none }

/-- HDFS state with a pre-existing file at `d/f.txt`. -/
def hdfsStPre : HdfsState := { dirs := [], files := [("d/f.txt", [1, 2, 3])] }

/-- The `CopyResponse` of the C1 run (listing `listingC1`, everything
succeeds): note `FilesRequested = 2` although only one entry is a file. -/
def respC1 : CopyResponse :=
  { From := "h", To := "t", Written := 5, FilesRequested := 2, FilesCopied := 2,
    CopyFailures := [], Throughput := ((5 : Int) : ℚ) * 8 / (1 : ℚ) / 1000000,
    ElapsedSecs := 1 }

/-- The `CopyResponse` of the C2 run (one 7-byte file, upload rejected). -/
def respC2 : CopyResponse :=
  { From := "g", To := "t", Written := 0, FilesRequested := 1, FilesCopied := 0,
    CopyFailures := [{ Path := "g/y", Reason := nonOkReason "y" 500, Size := 7 }],
    Throughput := ((0 : Int) : ℚ) * 8 / (1 : ℚ) / 1000000, ElapsedSecs := 1 }

/-- The `CopyResponse` of the C3 run (one 7-byte file named `x`, upload
rejected with 500). -/
def respC3 : CopyResponse :=
  { From := "f", To := "t", Written := 0, FilesRequested := 1, FilesCopied := 0,
    CopyFailures := [{ Path := "f/x", Reason := nonOkReason "x" 500, Size := 7 }],
    Throughput := ((0 : Int) : ℚ) * 8 / (1 : ℚ) / 1000000, ElapsedSecs := 1 }

/-- The `CopyResponse` of the C6 run (empty listing, `targetURL` missing). -/
def respC6 : CopyResponse :=
  { From := "/a", To := "/b", Written := 0, FilesRequested := 0, FilesCopied := 0,
    CopyFailures := [], Throughput := ((0 : Int) : ℚ) * 8 / (1 : ℚ) / 1000000,
    ElapsedSecs := 1 }

/-- The `CopyResponse` of the C8 witness run (one 3-byte file, success). -/
def respC8 : CopyResponse :=
  { From := "a", To := "b", Written := 3, FilesRequested := 1, FilesCopied := 1,
    CopyFailures := [], Throughput := ((3 : Int) : ℚ) * 8 / (1 : ℚ) / 1000000,
    ElapsedSecs := 1 }

/-- The HDFS state after the C10 witness write. -/
def stC10 : HdfsState := { dirs := ["d"], files := [("d/f", [5])] }

/-! ### Supporting lemmas -/

theorem subtractFailures_fst (fs : List CopyFailure) :
    ∀ t : Int, (subtractFailures fs t).1 = t - sumFailSizes fs := by
  induction fs with
  | nil => intro t; simp [subtractFailures, sumFailSizes]
  | cons f rest ih => intro t; simp [subtractFailures, sumFailSizes, ih]; ring

theorem nonDirs_cons (fi : FileInfo) (rest : List FileInfo) :
    nonDirs (fi :: rest) = if fi.isDir then nonDirs rest else fi :: nonDirs rest := by
  by_cases h : fi.isDir <;> simp [nonDirs, List.filter_cons, h]

theorem copyLoop_finished_inv (env : CopyEnv) (fromP toP tgt : String) :
    ∀ (l : List FileInfo) (t0 : Int) (r0 : List TaskRun) (n0 : List String) (tr0 : List Int)
      {total : Int} {runs : List TaskRun} {launched : List String} {trace : List Int},
      copyLoop env fromP toP tgt l t0 r0 n0 tr0 = .finished total runs launched trace →
      total = t0 + sumSizes (nonDirs l) ∧
      runs = r0 ++ (nonDirs l).map (mkRun env fromP toP tgt) := by
  intro l
  induction l with
  | nil =>
    intro t0 r0 n0 tr0 total runs launched trace h
    simp only [copyLoop, LoopOut.finished.injEq] at h
    simp [nonDirs, sumSizes, ← h.1, ← h.2.1]
  | cons fi rest ih =>
    intro t0 r0 n0 tr0 total runs launched trace h
    by_cases hd : fi.isDir
    · simp only [copyLoop, hd, if_true] at h
      have := ih t0 r0 n0 tr0 h
      simpa [nonDirs_cons, hd] using this
    · simp only [copyLoop, hd, Bool.false_eq_true, if_false] at h
      cases ho : env.openErr (filepathJoin fromP fi.name) with
      | some msg => rw [ho] at h; exact LoopOut.noConfusion h
      | none =>
        rw [ho] at h
        have := ih (t0 + fi.size) _ _ _ h
        obtain ⟨h1, h2⟩ := this
        constructor
        · rw [h1]; simp [nonDirs_cons, hd, sumSizes]; ring
        · rw [h2]; simp [nonDirs_cons, hd, mkRun]

theorem failuresOf_mkRun (env : CopyEnv) (fromP toP tgt : String) (fi : FileInfo) :
    (mkRun env fromP toP tgt fi).failuresOf =
      if uploadFails env tgt toP fi then [mkFail env fromP toP tgt fi] else [] := by
  unfold mkRun sendToUpload uploadFails stepFails mkFail stepFailReason uploadUrlFor
  cases h : env.upload (tgt ++ "?fileName=" ++ fi.name ++ "&to=" ++ toP) with
  | newReqErr msg => simp [h, TaskRun.failuresOf]
  | doErr msg => simp [h, TaskRun.failuresOf]
  | status code =>
    by_cases hc : code = 200 <;> simp [h, hc, TaskRun.failuresOf]

theorem collectFailures_map_mkRun (env : CopyEnv) (fromP toP tgt : String) :
    ∀ nd : List FileInfo,
      collectFailures (nd.map (mkRun env fromP toP tgt)) =
        (nd.filter (uploadFails env tgt toP)).map (mkFail env fromP toP tgt) := by
  intro nd
  induction nd with
  | nil => simp [collectFailures]
  | cons fi rest ih =>
    simp only [List.map_cons, collectFailures, failuresOf_mkRun, List.filter_cons]
    by_cases hf : uploadFails env tgt toP fi <;> simp [hf, ih]

theorem sumFailSizes_map_mkFail (env : CopyEnv) (fromP toP tgt : String) :
    ∀ xs : List FileInfo,
      sumFailSizes (xs.map (mkFail env fromP toP tgt)) = sumSizes xs := by
  intro xs
  induction xs with
  | nil => simp [sumFailSizes, sumSizes]
  | cons fi rest ih => simp [sumFailSizes, sumSizes, mkFail, ih]

theorem sumSizes_filter_split (p : FileInfo → Bool) :
    ∀ l : List FileInfo,
      sumSizes (l.filter p) + sumSizes (l.filter (fun x => !(p x))) = sumSizes l := by
  intro l
  induction l with
  | nil => simp [sumSizes]
  | cons fi rest ih =>
    by_cases hp : p fi <;> simp [List.filter_cons, hp, sumSizes] <;> omega

theorem handleCopy_done_inv (env : CopyEnv) (fromP toP tgt : String) (e : ℚ)
    {resp : CopyResponse} {b : Bool} {tr : List Int} {launched : List String}
    (h : handleCopy env fromP toP tgt e = .done resp b tr launched) :
    ∃ l, env.readDir = .ok l ∧
      resp.FilesRequested = (l.length : Int) ∧
      resp.CopyFailures =
        ((nonDirs l).filter (uploadFails env tgt toP)).map (mkFail env fromP toP tgt) ∧
      resp.FilesCopied = (l.length : Int) - (resp.CopyFailures.length : Int) ∧
      resp.Written = sumSizes (nonDirs l) - sumFailSizes resp.CopyFailures ∧
      resp.Throughput = (resp.Written : ℚ) * 8 / e / 1000000 ∧
      resp.ElapsedSecs = e ∧
      b = false := by
  unfold handleCopy at h
  split at h
  · exact CopyResult.noConfusion h
  split at h
  next msg heq => exact CopyResult.noConfusion h
  next l heq =>
    split at h
    next f la t trc hcl => exact CopyResult.noConfusion h
    next total runs launched2 trace hcl =>
      split at h
      · exact CopyResult.noConfusion h
      next hpan =>
        injection h with h1 h2 h3 h4
        obtain ⟨ht, hr⟩ := copyLoop_finished_inv env fromP toP tgt l 0 [] [] [] hcl
        subst h1
        refine ⟨l, heq, rfl, ?_, rfl, ?_, rfl, rfl, ?_⟩
        · simp only [hr, List.nil_append, collectFailures_map_mkRun]
        · simp only [subtractFailures_fst, ht]
          ring_nf
        · simp [← h2, unbufferedChanLen]

theorem activeTrace_le (sched : List TaskEvent) :
    ∀ (a v : Int), v ∈ activeTrace sched a →
      v ≤ a + (sched.countP TaskEvent.isStart : Int) := by
  induction sched with
  | nil => intro a v hv; simp [activeTrace] at hv
  | cons ev rest ih =>
    intro a v hv
    rw [activeTrace] at hv
    rcases List.mem_cons.mp hv with h1 | h2
    · subst h1
      by_cases hs : ev.isStart
      · simp [hs, List.countP_cons]
      · simp [hs, List.countP_cons]
        omega
    · have hrec := ih _ v h2
      by_cases hs : ev.isStart
      · simp only [hs, if_true, List.countP_cons, hs]
        simp [hs] at hrec
        omega
      · simp only [List.countP_cons, hs]
        simp [hs] at hrec
        omega


theorem foldr_intMax_le (c : Int) (hc : 0 ≤ c) :
    ∀ l : List Int, (∀ v ∈ l, v ≤ c) → l.foldr intMax 0 ≤ c := by
  intro l
  induction l with
  | nil => intro _; simpa [List.foldr]
  | cons x rest ih =>
    intro hv
    have h1 : x ≤ c := hv x (by simp)
    have h2 := ih (fun v hvm => hv v (by simp [hvm]))
    simp only [List.foldr, intMax]
    split <;> omega

theorem mem_startIdxs (i : Nat) :
    ∀ sched : List TaskEvent, i ∈ startIdxs sched ↔ TaskEvent.start i ∈ sched := by
  intro sched
  induction sched with
  | nil => simp [startIdxs]
  | cons ev rest ih =>
    cases ev with
    | start j => simp [startIdxs, List.filterMap_cons] at ih ⊢; simp [ih]
    | finish j => simp [startIdxs, List.filterMap_cons] at ih ⊢; simp [ih]

theorem count_startIdxs (i : Nat) :
    ∀ sched : List TaskEvent, (startIdxs sched).count i = sched.count (TaskEvent.start i) := by
  intro sched
  induction sched with
  | nil => simp [startIdxs]
  | cons ev rest ih =>
    cases ev with
    | start j =>
      simp only [startIdxs, List.filterMap_cons] at ih ⊢
      simp only [List.count_cons, ih]
      congr 1
      simp [beq_iff_eq]
    | finish j =>
      simp only [startIdxs, List.filterMap_cons] at ih ⊢
      simp [List.count_cons, ih]

theorem startIdxs_length (sched : List TaskEvent) :
    (startIdxs sched).length = sched.countP TaskEvent.isStart := by
  induction sched with
  | nil => simp [startIdxs]
  | cons ev rest ih =>
    cases ev <;> simp [startIdxs, List.filterMap_cons, List.countP_cons, TaskEvent.isStart] at ih ⊢ <;>
      simp [ih]

theorem countP_isStart_le (n : Nat) (sched : List TaskEvent)
    (hadm : admissible n sched = true) : sched.countP TaskEvent.isStart ≤ n := by
  unfold admissible at hadm
  rw [Bool.and_eq_true] at hadm
  obtain ⟨hidx, hcnt⟩ := hadm
  rw [List.all_eq_true] at hidx hcnt
  have hidx2 : ∀ e ∈ sched, e.idx < n := by
    intro ev he; have := hidx ev he; simpa using this
  have hcount1 : ∀ i, i < n → sched.count (TaskEvent.start i) = 1 := by
    intro i hi
    have := hcnt i (List.mem_range.mpr hi)
    rw [Bool.and_eq_true, Bool.and_eq_true] at this
    simpa using this.1.1
  have hcount0 : ∀ i, n ≤ i → sched.count (TaskEvent.start i) = 0 := by
    intro i hi
    rw [List.count_eq_zero]
    intro hmem
    have := hidx2 _ hmem
    simp [TaskEvent.idx] at this
    omega
  have hnodup : (startIdxs sched).Nodup := by
    rw [List.nodup_iff_count_le_one]
    intro i
    rw [count_startIdxs]
    by_cases hi : i < n
    · rw [hcount1 i hi]
    · rw [hcount0 i (by omega)]; omega
  have hsub : startIdxs sched ⊆ List.range n := by
    intro i hi
    have hmem := (mem_startIdxs i sched).mp hi
    have := hidx2 _ hmem
    simp [TaskEvent.idx] at this
    exact List.mem_range.mpr this
  have hlen := (hnodup.subperm hsub).length_le
  rw [startIdxs_length] at hlen
  simpa using hlen

theorem lookupFile_setFile (st : HdfsState) (p : String) (v : List Nat) :
    (st.setFile p v).lookupFile p = some v := by
  simp [HdfsState.setFile, HdfsState.lookupFile, List.find?]

/-! ### Claim theorems -/

/-- C1, counterexample: a listing containing a directory entry refutes
`filesRequested == N`. With one directory and one 5-byte file, the run
completes with `FilesRequested = 2` although the number of non-directory
entries is 1: `FilesRequested` is `len(fileInfos)`, which counts
directories. -/
theorem copy_filesRequested_counts_directories :
    handleCopy envC1 "h" "t" "u" 1 = CopyResult.done respC1 false [5] ["a"] ∧
    ((nonDirs listingC1).length : Int) = 1 ∧ respC1.FilesRequested = 2 :=
  ⟨rfl, by decide, by decide⟩

/-- C1, amended: for every `/copy` run that completes with a summary,
`filesCopied + len(copyFailures) == filesRequested` holds, but
`filesRequested` equals the total number of listed entries, directories
included — not the number of non-directory entries. -/
theorem copy_counts_balance (env : CopyEnv) (fromP toP tgt : String) (e : ℚ)
    (l : List FileInfo) (resp : CopyResponse) (b : Bool) (tr : List Int)
    (launched : List String)
    (hl : env.readDir = .ok l)
    (h : handleCopy env fromP toP tgt e = .done resp b tr launched) :
    resp.FilesCopied + (resp.CopyFailures.length : Int) = resp.FilesRequested ∧
    resp.FilesRequested = (l.length : Int) := by
  obtain ⟨l2, hrd, hreq, _, hcop, _, _, _, _⟩ := handleCopy_done_inv env fromP toP tgt e h
  rw [hl] at hrd
  injection hrd with hl2
  subst hl2
  constructor
  · rw [hcop, hreq]; ring
  · exact hreq

/-- C1 witness: the amended count identity evaluated on the concrete
two-entry run. -/
theorem copy_counts_balance_witness :
    respC1.FilesCopied + (respC1.CopyFailures.length : Int) = respC1.FilesRequested ∧
    respC1.FilesRequested = (listingC1.length : Int) :=
  copy_counts_balance envC1 "h" "t" "u" 1 listingC1 respC1 false [5] ["a"] rfl rfl

/-- C2, counterexample: with a single 7-byte file whose upload is rejected,
the trace of `totalBytesWritten` is `[7, 0]` — the total held the 7 bytes of
the failing file mid-run (they are added before the transfer and subtracted
only after the join), while the sum of sizes over non-failing entries is 0.
This refutes the never-transiently-included clause. -/
theorem copy_written_transiently_includes_failed_bytes :
    handleCopy envC2 "g" "t" "u" 1 = CopyResult.done respC2 false [7, 0] ["y"] ∧
    (7 : Int) ∈ [(7 : Int), 0] ∧
    respC2.CopyFailures = [{ Path := "g/y", Reason := nonOkReason "y" 500, Size := 7 }] ∧
    sumSizes ((nonDirs listingOne7).filter
      (fun fi => !(uploadFails envC2 "u" "t" fi))) = 0 :=
  ⟨rfl, by decide, by decide, by decide⟩

/-- C2, amended: for every `/copy` run that completes with a summary, the
final `written` equals the sum of the sizes of the non-directory entries
whose transfer did not fail; transiently, however, the accumulated total does
include the bytes of failing files (they are added up front and subtracted
after the join). -/
theorem copy_written_equals_sum_of_unfailed (env : CopyEnv) (fromP toP tgt : String)
    (e : ℚ) (l : List FileInfo) (resp : CopyResponse) (b : Bool) (tr : List Int)
    (launched : List String)
    (hl : env.readDir = .ok l)
    (h : handleCopy env fromP toP tgt e = .done resp b tr launched) :
    resp.Written =
      sumSizes ((nonDirs l).filter (fun fi => !(uploadFails env tgt toP fi))) := by
  obtain ⟨l2, hrd, _, hcf, _, hw, _, _, _⟩ := handleCopy_done_inv env fromP toP tgt e h
  rw [hl] at hrd
  injection hrd with hl2
  subst hl2
  rw [hcf, sumFailSizes_map_mkFail] at hw
  have hsplit := sumSizes_filter_split (uploadFails env tgt toP) (nonDirs l)
  omega

/-- C2 witness: the amended sum identity evaluated on the concrete
one-rejected-file run. -/
theorem copy_written_equals_sum_of_unfailed_witness :
    respC2.Written =
      sumSizes ((nonDirs listingOne7).filter (fun fi => !(uploadFails envC2 "u" "t" fi))) :=
  copy_written_equals_sum_of_unfailed envC2 "g" "t" "u" 1 listingOne7 respC2 false
    [7, 0] ["y"] rfl rfl

/-- C3, code bug: a completed `/copy` run whose failure list is non-empty is
still reported as a success. The handler tests `len(copyFailuresCh) > 0`,
the length of the unbuffered channel — which is always 0 — instead of
`len(copyFailures)`: with one rejected file the result carries the populated
failure list but the error flag is `false` (the 200 path), so the 500 branch
is dead code. -/
theorem copy_partial_failure_reported_as_success :
    handleCopy envC3 "f" "t" "u" 1 = CopyResult.done respC3 false [7, 0] ["x"] ∧
    respC3.CopyFailures ≠ [] :=
  ⟨rfl, by decide⟩

/-- C4, code bug: a failure of `client.Open` for one file is not recovered
locally. With two files where opening the first fails, the handler records
the failure and then executes `return`, leaving the whole handler: no task is
launched for the sibling file (`launched = []`) and no summary is produced
(the result is `openAbort`, not `done`). -/
theorem copy_open_failure_aborts_handler :
    handleCopy envC4 "f" "t" "u" 1 =
      CopyResult.openAbort { Path := "f/a", Reason := "open failed", Size := 3 } [] := by
  decide

/-- C5, counterexample: with nine files the handler launches nine tasks, and
the all-starts-first interleaving — admissible because the fan-out loop
acquires no permit and imposes no ordering between distinct tasks — has all
nine concurrently active, exceeding the claimed capacity 8. -/
theorem copy_nine_tasks_simultaneously_active :
    (handleCopy env9 "f" "t" "u" 1).launchedOf.length = 9 ∧
    admissible 9 (burstSchedule 9) = true ∧
    maxActive (burstSchedule 9) = 9 ∧ ¬((9 : Int) ≤ 8) :=
  ⟨by decide, by decide, by decide, by decide⟩

/-- C5, amended: the code contains no concurrency limiter, so the only bound
on simultaneously active transfer tasks is the number of launched tasks
itself: every admissible schedule of `n` tasks has at most `n` concurrently
active, and the all-starts-first schedule attains that bound (9 active for
9 tasks, exceeding the claimed capacity of 8). -/
theorem copy_active_tasks_bounded_only_by_task_count :
    (∀ (n : Nat) (sched : List TaskEvent),
      admissible n sched = true → maxActive sched ≤ (n : Int)) ∧
    admissible 9 (burstSchedule 9) = true ∧ maxActive (burstSchedule 9) = 9 := by
  refine ⟨?_, by decide, by decide⟩
  intro n sched hadm
  have hc : sched.countP TaskEvent.isStart ≤ n := countP_isStart_le n sched hadm
  have hb : ∀ v ∈ activeTrace sched 0, v ≤ (n : Int) := by
    intro v hv
    have := activeTrace_le sched 0 v hv
    omega
  have := foldr_intMax_le (n : Int) (by omega) (activeTrace sched 0) hb
  simpa [maxActive] using this

/-- C5 witness: the schedule bound applied to the two-task burst
schedule. -/
theorem copy_active_tasks_bounded_only_by_task_count_witness :
    admissible 2 (burstSchedule 2) = true ∧ maxActive (burstSchedule 2) ≤ (2 : Int) :=
  ⟨by decide,
    copy_active_tasks_bounded_only_by_task_count.1 2 (burstSchedule 2) (by decide)⟩

/-- C6, code bug: a `/copy` request with `targetURL` missing is not rejected.
The validation tests only `from` and `to` (although its own error message
names `targetURL` as required), so the handler proceeds — it lists the
directory and runs to a summary instead of returning the 400 branch with no
side effects. The `/upload` half of the claim does hold (see
`upload_success_contract`). -/
theorem copy_missing_targetURL_not_rejected :
    handleCopy envC6 "/a" "/b" "" 1 = CopyResult.done respC6 false [] [] := rfl

/-- C9, code bug: the error branches of `sendToUpload` are not early exits —
there is no `return` after the channel send. On an `httpClient.Do` network
error the function continues past the branch and dereferences the nil
response (`defer resp.Body.Close()`), a panic that kills the process; on a
non-OK status it falls through to the success log and returns normally with
the single failure recorded. -/
theorem sendToUpload_error_branches_fall_through :
    sendToUpload envDoErr "http://b/upload" argsC9 7 =
      TaskRun.panicked [{ Path := "/src/x", Reason := "connection refused", Size := 7 }] ∧
    sendToUpload envStatus500 "http://b/upload" argsC9 7 =
      TaskRun.normal [{ Path := "/src/x", Reason := nonOkReason "x" 500, Size := 7 }] :=
  ⟨rfl, rfl⟩

/-- C7, confirmed: for every `/upload` request with both parameters present
whose storage write succeeds, the response is the `{path, written}` JSON with
`path = filepath.Join(to, fileName)` and `written` the exact byte count of
the body, and the file at that path afterwards holds exactly the body (any
pre-existing file is overwritten); if `Create` or the body copy fails, the
response is the 500 branch. -/
theorem upload_success_contract (env : UploadEnv) (st : HdfsState) (toP fn : String)
    (body : List Nat) (ht : toP ≠ "") (hf : fn ≠ "") :
    (env.createErr (filepathJoin toP fn) = none ∧ env.copyErr = none →
      (handleUpload env st toP fn body).1 =
        UploadHttpOut.okJson { Path := filepathJoin toP fn, Written := (body.length : Int) } ∧
      ((handleUpload env st toP fn body).2).lookupFile (filepathJoin toP fn) = some body) ∧
    ((env.createErr (filepathJoin toP fn)).isSome ∨ env.copyErr.isSome →
      ((handleUpload env st toP fn body).1).isServerError = true) := by
  have hval : ¬(toP = "" ∨ fn = "") := by
    rintro (hh | hh)
    · exact ht hh
    · exact hf hh
  constructor
  · rintro ⟨hce, hcp⟩
    simp only [handleUpload, if_neg hval, WriteHDFS, hce, hcp]
    exact ⟨trivial, lookupFile_setFile _ _ _⟩
  · intro herr
    rcases hce : env.createErr (filepathJoin toP fn) with _ | e2
    · rcases hcp : env.copyErr with _ | ⟨msg, k⟩
      · rw [hce, hcp] at herr
        simp at herr
      · simp only [handleUpload, if_neg hval, WriteHDFS, hce, hcp]
        rfl
    · simp only [handleUpload, if_neg hval, WriteHDFS, hce]
      rfl

/-- C7 witness: uploading a 2-byte body over a pre-existing 3-byte file at
`d/f.txt` returns that path with `written = 2` and overwrites the content. -/
theorem upload_success_contract_witness :
    (handleUpload uploadEnvOk hdfsStPre "d" "f.txt" [9, 9]).1 =
      UploadHttpOut.okJson
        { Path := filepathJoin "d" "f.txt", Written := (([9, 9] : List Nat).length : Int) } ∧
    ((handleUpload uploadEnvOk hdfsStPre "d" "f.txt" [9, 9]).2).lookupFile
      (filepathJoin "d" "f.txt") = some [9, 9] :=
  (upload_success_contract uploadEnvOk hdfsStPre "d" "f.txt" [9, 9]
    (by decide) (by decide)).1 ⟨rfl, rfl⟩

/-- C8, confirmed: on every `/copy` run that completes with a summary,
`throughputMbps` is exactly `written * 8 / elapsedSecs / 1_000_000` (in the
exact-rational model of the float arithmetic) and `elapsedSecs` is the
clock reading, strictly positive whenever the clock advanced. -/
theorem copy_throughput_formula (env : CopyEnv) (fromP toP tgt : String) (e : ℚ)
    (resp : CopyResponse) (b : Bool) (tr : List Int) (launched : List String)
    (he : 0 < e)
    (h : handleCopy env fromP toP tgt e = .done resp b tr launched) :
    resp.Throughput = (resp.Written : ℚ) * 8 / resp.ElapsedSecs / 1000000 ∧
    resp.ElapsedSecs = e ∧ 0 < resp.ElapsedSecs := by
  obtain ⟨l2, _, _, _, _, _, hthr, hels, _⟩ := handleCopy_done_inv env fromP toP tgt e h
  refine ⟨?_, hels, ?_⟩
  · rw [hthr, hels]
  · rw [hels]; exact he

/-- C8 witness: the throughput identity evaluated on a one-file run with
`elapsed = 1`. -/
theorem copy_throughput_formula_witness :
    respC8.Throughput = (respC8.Written : ℚ) * 8 / respC8.ElapsedSecs / 1000000 ∧
    respC8.ElapsedSecs = 1 ∧ (0 : ℚ) < respC8.ElapsedSecs :=
  copy_throughput_formula envC8 "a" "b" "u" 1 respC8 false [3] ["w"] (by decide) rfl

/-- C10, confirmed: the `/upload` destination path is exactly the lexical
`filepath.Join` of `to` and `fileName`; consequently a `fileName` containing
`..` segments resolves outside the `to` directory — for
`to = "/data/in"` and `fileName = "../../etc/creds"` the join is
`/etc/creds`, not under `/data/in`. -/
theorem upload_path_is_lexical_join :
    (∀ (env : UploadEnv) (st : HdfsState) (toP fn : String) (body : List Nat)
      (resp : UploadResponse) (st2 : HdfsState),
      WriteHDFS env st toP fn body = .success resp st2 → resp.Path = filepathJoin toP fn) ∧
    filepathJoin "/data/in" "../../etc/creds" = "/etc/creds" ∧
    isUnder "/data/in" (filepathJoin "/data/in" "../../etc/creds") = false := by
  refine ⟨?_, by decide, by decide⟩
  intro env st toP fn body resp st2 h
  rcases hce : env.createErr (filepathJoin toP fn) with _ | e2
  · rcases hcp : env.copyErr with _ | ⟨msg, k⟩
    · simp only [WriteHDFS, hce, hcp] at h
      injection h with h1 h2
      rw [← h1]
    · simp only [WriteHDFS, hce, hcp] at h
      exact UploadOut.noConfusion h
  · simp only [WriteHDFS, hce] at h
    exact UploadOut.noConfusion h

/-- C10 witness: a concrete successful write whose returned path is the
lexical join. -/
theorem upload_path_is_lexical_join_witness :
    WriteHDFS uploadEnvOk { dirs := [], files := [] } "d" "f" [5] =
      UploadOut.success { Path := "d/f", Written := 1 } stC10 ∧
    ({ Path := "d/f", Written := 1 } : UploadResponse).Path = filepathJoin "d" "f" :=
  ⟨by decide,
    upload_path_is_lexical_join.1 uploadEnvOk { dirs := [], files := [] } "d" "f" [5]
      { Path := "d/f", Written := 1 } stC10 (by decide)⟩
